import Mathlib

/-!
Verification of the coverage-extraction logic of
`Scripts/TesterPlugins/TestExecutors/ClangCoverageTestExecutor.py`.

The Python module's only algorithmic content lives in the nested helpers of
`_CodeCoverageExecutor.ExtractCoverageInfo`:

* `CreateItemMatcher` — a `::`-segmented glob matcher,
* `CreateSourceMatcher` — include/exclude filter combination,
* `ApplyFunc` — the streaming aggregator over the line-delimited JSON
  coverage report,
* the tail of `ExtractCoverageInfo` — source-filename derivation from the
  compiler context and conversion of an absent result to `(0, 0)`.

Those are embedded below as executable Lean functions.  JSON records are
modelled by `ReportRecord` (optional fields stand for present/absent keys),
Python `assert` failures by `Except.error`, and `pathlib.Path.match`
(an external library routine whose detailed glob semantics none of the
verified properties depend on) by an explicit function parameter
`pathMatch`.
-/

namespace ClangCoverage

/-- Decidable equality for `Except`, so concrete runs of the aggregator can
be checked by `decide`. -/
instance exceptDecEq {ε α : Type} [DecidableEq ε] [DecidableEq α] :
    DecidableEq (Except ε α) := fun a b =>
  match a, b with
  | .ok x, .ok y =>
    match decEq x y with
    | isTrue h => isTrue (congrArg Except.ok h)
    | isFalse h => isFalse (fun hh => h (Except.ok.inj hh))
  | .error x, .error y =>
    match decEq x y with
    | isTrue h => isTrue (congrArg Except.error h)
    | isFalse h => isFalse (fun hh => h (Except.error.inj hh))
  | .ok _, .error _ => isFalse (fun hh => Except.noConfusion hh)
  | .error _, .ok _ => isFalse (fun hh => Except.noConfusion hh)

/-- Helper for `splitSegments`: scans the character list, emitting a segment
each time the two-character separator `::` is found (leftmost,
non-overlapping), as Python's `str.split("::")` does. -/
def splitGo : List Char → List Char → List String
  | [], acc => [String.mk acc.reverse]
  | ':' :: ':' :: rest, acc => String.mk acc.reverse :: splitGo rest []
  | c :: rest, acc => splitGo rest (c :: acc)

/-- Embedding of Python `value.split("::")` (line 169 / line 175 of the
source): split a string on the literal separator `::`. -/
def splitSegments (s : String) : List String :=
  splitGo s.data []

/-- Embedding of the cursor loop inside `CreateItemMatcher.Impl`
(source lines 172-207), as a recursion on the pattern segments:

* `*\x7b1\x7d` consumes exactly one value segment;
* `*` as the last pattern segment returns `true` immediately;
* `*` followed by more pattern segments skips value segments until one
  equals the next pattern segment (the Python inner `while`, rendered by
  `List.dropWhile` starting at the current value cursor);
* a literal segment must equal the current value segment, else the scan
  stops without success;
* when either list is exhausted the result is the Python post-loop check
  `glob_part_index == len(glob_parts) and value_part_index == len(value_parts)`. -/
def matchesParts : List String → List String → Bool
  | [], [] => true
  | [], _ :: _ => false
  | _ :: _, [] => false
  | glob_part :: glob_rest, value_part :: value_rest =>
    if glob_part = "*\x7b1\x7d" then
      matchesParts glob_rest value_rest
    else if glob_part = "*" then
      match glob_rest with
      | [] => true
      | next_glob_part :: _ =>
        matchesParts glob_rest
          (List.dropWhile (fun v => v ≠ next_glob_part) (value_part :: value_rest))
    else if glob_part = value_part then
      matchesParts glob_rest value_rest
    else
      false

/-- Embedding of `CreateItemMatcher` (source lines 166-211): the matcher for
one `::`-segmented glob, applied to a `::`-segmented value. -/
def CreateItemMatcher (glob_value : String) : String → Bool := fun value =>
  matchesParts (splitSegments glob_value) (splitSegments value)

/-- The `CodeCoverageContentFilter` data imported from
`CodeCoverageFilter` and used by the source: optional include and exclude
glob lists (`None` in Python is `none` here). -/
structure CodeCoverageContentFilter where
  includes : Option (List String)
  excludes : Option (List String)
deriving DecidableEq, Repr

/-- Embedding of `CreateSourceMatcher` (source lines 214-240): reject when
the exclude list is non-empty and some exclude glob matches; then reject
when the include list is non-empty and no include glob matches; otherwise
accept.  `filter.includes or []` is rendered by `Option.getD`. -/
def CreateSourceMatcher (filter : CodeCoverageContentFilter) : String → Bool :=
  fun value =>
    let include_funcs := (filter.includes.getD []).map CreateItemMatcher
    let exclude_funcs := (filter.excludes.getD []).map CreateItemMatcher
    if !exclude_funcs.isEmpty && exclude_funcs.any (fun f => f value) then
      false
    else if !include_funcs.isEmpty && !include_funcs.any (fun f => f value) then
      false
    else
      true

/-- The `CoverageResult` pair produced by the aggregator (covered,
uncovered line counts). -/
structure CoverageResult where
  covered : Int
  uncovered : Int
deriving DecidableEq, Repr

/-- The modelled fields of the `file` object of one JSON report line:
`data.get("file", \x7b\x7d).get("name")`, `file_data.get("total_covered")`,
`file_data.get("total_uncovered")`.  `none` stands for an absent key. -/
structure FileData where
  name : Option String := none
  total_covered : Option Int := none
  total_uncovered : Option Int := none
deriving DecidableEq, Repr

/-- The modelled fields of the `method` object of one JSON report line. -/
structure MethodData where
  name : Option String := none
  total_covered : Option Int := none
  total_uncovered : Option Int := none
deriving DecidableEq, Repr

/-- One parsed line of the line-delimited JSON coverage report.  A record
with no `file` key behaves in the source exactly like one whose `file`
object is empty (every access goes through `.get`), so `file` is a plain
`FileData`; `method` is `none` when the `method` key is absent. -/
structure ReportRecord where
  file : FileData := {}
  method : Option MethodData := none
deriving DecidableEq, Repr

/-- Embedding of the match-all test of `ApplyFunc` (source lines 254-258):
`len(v.includes or []) == 1 and v.includes[0] == "*" and v.excludes is None`. -/
def isMatchAllFilter (v : CodeCoverageContentFilter) : Bool :=
  (v.includes.getD []).length == 1 &&
  (v.includes.getD []).headD "" == "*" &&
  v.excludes.isNone

/-- The `should_match_all_file_globs` set built by `ApplyFunc`
(source lines 250-260): the source-filename globs whose filter is a
match-all filter.  The Python `dict` preserves insertion order, so the
mapping is modelled as an association list. -/
def should_match_all_file_globs
    (source_filters : List (String × CodeCoverageContentFilter)) : List String :=
  (source_filters.filter (fun kv => isMatchAllFilter kv.2)).map Prod.fst

/-- The `source_matchers` mapping built by `ApplyFunc` (source lines
251-262): every entry whose filter is not a match-all filter.  The compiled
matcher of an entry is recovered with `CreateSourceMatcher`. -/
def source_matchers
    (source_filters : List (String × CodeCoverageContentFilter)) :
    List (String × CodeCoverageContentFilter) :=
  source_filters.filter (fun kv => !isMatchAllFilter kv.2)

/-- The `match_funcs` list built for one method-level record (source lines
296-300): the compiled matchers of the non-match-all entries whose
source-filename glob matches the record's filename. -/
def matchFuncs (pathMatch : String → String → Bool)
    (matchers : List (String × CodeCoverageContentFilter))
    (filename : String) : List (String → Bool) :=
  (matchers.filter (fun kv => pathMatch filename kv.1)).map
    (fun kv => CreateSourceMatcher kv.2)

/-- Embedding of one iteration of the `for line in f.readlines()` loop of
`ApplyFunc` (source lines 269-321).  The state is the pair
`(file_result, result)`; a failed Python `assert` becomes `Except.error`.

* missing `file.name` → `assert filename is not None` fails;
* both totals under `file` → file-level record: capture it as
  `file_result` when none was captured yet and the filename matches a
  match-all glob, and never touch the method-level sum;
* otherwise → method-level record: `assert method_data` /
  `assert method_name is not None` always run, while the totals are
  asserted (and summed) only when `match_funcs` is non-empty and every
  matched filter accepts the method name. -/
def processRecord (pathMatch : String → String → Bool)
    (match_all_globs : List String)
    (matchers : List (String × CodeCoverageContentFilter))
    (st : Option CoverageResult × Option (Int × Int))
    (data : ReportRecord) :
    Except String (Option CoverageResult × Option (Int × Int)) :=
  match data.file.name with
  | none => .error "filename is not None"
  | some filename =>
    if data.file.total_covered.isSome && data.file.total_uncovered.isSome then
      if st.1.isNone && match_all_globs.any (fun g => pathMatch filename g) then
        .ok (some ⟨data.file.total_covered.getD 0, data.file.total_uncovered.getD 0⟩, st.2)
      else
        .ok st
    else
      let match_funcs := matchFuncs pathMatch matchers filename
      match data.method with
      | none => .error "method_data"
      | some method_data =>
        match method_data.name with
        | none => .error "method_name is not None"
        | some method_name =>
          if !match_funcs.isEmpty && match_funcs.all (fun f => f method_name) then
            if method_data.total_covered.isSome && method_data.total_uncovered.isSome then
              let result := st.2.getD (0, 0)
              .ok (st.1, some (result.1 + method_data.total_covered.getD 0,
                               result.2 + method_data.total_uncovered.getD 0))
            else if method_data.total_covered.isNone then
              .error "total_covered is not None"
            else
              .error "total_uncovered is not None"
          else
            .ok st

/-- The record loop of `ApplyFunc` (source lines 268-321): fold
`processRecord` over the report's records, stopping at the first failed
assertion. -/
def runRecords (pathMatch : String → String → Bool)
    (match_all_globs : List String)
    (matchers : List (String × CodeCoverageContentFilter))
    (st : Option CoverageResult × Option (Int × Int)) :
    List ReportRecord → Except String (Option CoverageResult × Option (Int × Int))
  | [] => .ok st
  | data :: rest =>
    match processRecord pathMatch match_all_globs matchers st data with
    | .error e => .error e
    | .ok st' => runRecords pathMatch match_all_globs matchers st' rest

/-- Embedding of `ApplyFunc` (source lines 243-328): build the match-all
glob set and the source matchers, fold the report, then select the result —
the method-level sum when one was accumulated, else the captured file-level
fallback, else `none`. -/
def ApplyFunc (pathMatch : String → String → Bool)
    (source_filters : List (String × CodeCoverageContentFilter))
    (report : List ReportRecord) :
    Except String (Option CoverageResult) :=
  match runRecords pathMatch (should_match_all_file_globs source_filters)
      (source_matchers source_filters) (none, none) report with
  | .error e => .error e
  | .ok (file_result, result) =>
    match result with
    | some r => .ok (some ⟨r.1, r.2⟩)
    | none =>
      match file_result with
      | some fr => .ok (some fr)
      | none => .ok none

/-- The tail of `ExtractCoverageInfo` (source lines 339-342): convert the
aggregator's optional result to the reported pair, with `(0, 0)` when no
data was found. -/
def extractReturnValue (result : Option CoverageResult) : Int × Int :=
  match result with
  | none => (0, 0)
  | some result => (result.covered, result.uncovered)

/-- Embedding of the Extract phase (source lines 337-342).  The external
`ApplyFilters` helper (from `Common_FoundationEx`, not part of this
repository) delegates to the aggregator per spec section 4.4; it is
modelled as passing `ApplyFunc`'s result through unchanged. -/
def ExtractCoverageInfo (pathMatch : String → String → Bool)
    (source_filters : List (String × CodeCoverageContentFilter))
    (report : List ReportRecord) :
    Except String (Int × Int) :=
  match ApplyFunc pathMatch source_filters report with
  | .error e => .error e
  | .ok result => .ok (extractReturnValue result)

/-- Embedding of the source-filename derivation (source lines 332-335):
use the `inputs` value when present; otherwise wrap the (possibly absent)
`input` value as `[source_filenames, ] or []` — a Python `or` on a list
that is always a one-element (hence truthy) list. -/
def deriveSourceFilenames (inputs : Option (List String))
    (input : Option String) : List (Option String) :=
  match inputs with
  | some source_filenames => source_filenames.map some
  | none =>
    let source_filenames := [input]
    if source_filenames.isEmpty then [] else source_filenames

/-- Which records abort the extraction: a missing filename; for a
method-level record a missing `method` object or method name; and a missing
method total exactly when the record's filename matches at least one
non-match-all glob and every matched filter accepts the method name.  This
is the error characterization proved about `processRecord` / `ApplyFunc`. -/
def requiredFieldMissing (pathMatch : String → String → Bool)
    (matchers : List (String × CodeCoverageContentFilter))
    (data : ReportRecord) : Bool :=
  match data.file.name with
  | none => true
  | some filename =>
    if data.file.total_covered.isSome && data.file.total_uncovered.isSome then
      false
    else
      match data.method with
      | none => true
      | some method_data =>
        match method_data.name with
        | none => true
        | some method_name =>
          if !(matchFuncs pathMatch matchers filename).isEmpty &&
              (matchFuncs pathMatch matchers filename).all (fun f => f method_name) then
            method_data.total_covered.isNone || method_data.total_uncovered.isNone
          else
            false

/-- Helper: the guard `exclude_funcs and any(...)` of `CreateSourceMatcher`
collapses to the `any`, since a non-empty `any` already implies a non-empty
list. -/
lemma not_isEmpty_and_any {α : Type} (l : List α) (p : α → Bool) :
    (!l.isEmpty && l.any p) = l.any p := by
  cases l <;> simp

/-- Helper: `CreateSourceMatcher` as a flat boolean formula over the raw
include/exclude glob lists. -/
lemma CreateSourceMatcher_eq (filter : CodeCoverageContentFilter) (value : String) :
    CreateSourceMatcher filter value =
      (!(filter.excludes.getD []).any (fun g => CreateItemMatcher g value) &&
       ((filter.includes.getD []).isEmpty ||
        (filter.includes.getD []).any (fun g => CreateItemMatcher g value))) := by
  have hmap : ∀ l : List String,
      (l.map CreateItemMatcher).any (fun f => f value) =
        l.any (fun g => CreateItemMatcher g value) := by
    intro l
    induction l with
    | nil => rfl
    | cons a t ih => simp [ih]
  obtain ⟨inc, exc⟩ := filter
  simp only [CreateSourceMatcher]
  cases hE : (exc.getD []).any (fun g => CreateItemMatcher g value) with
  | true =>
    have hne : ((exc.getD []).map CreateItemMatcher).isEmpty = false := by
      cases hl : exc.getD [] with
      | nil => rw [hl] at hE; simp at hE
      | cons a t => rfl
    have hmapE := (hmap (exc.getD [])).trans hE
    simp [hmapE, hne]
  | false =>
    have hmapE := (hmap (exc.getD [])).trans hE
    simp only [hmapE, Bool.and_false, Bool.not_false, Bool.true_and, if_false]
    cases hI : inc.getD [] with
    | nil => simp
    | cons a t =>
      cases hA : (a :: t).any (fun g => CreateItemMatcher g value) with
      | true =>
        have hmapI := (hmap (a :: t)).trans hA
        simp [hmapI]
        simpa using List.any_eq_true.mp hA
      | false =>
        have hmapI := (hmap (a :: t)).trans hA
        simp [hmapI]
        have h2 := List.any_eq_false.mp hA
        constructor
        · have := h2 a (by simp)
          simpa using this
        · intro x hx
          have := h2 x (by simp [hx])
          simpa using this

/-- C6: the `::`-segmented glob matcher satisfies the five concrete
spec cases, and whenever one side's segments are exhausted (the Python
loop's exit), the match succeeds exactly when the other side's segments
are exhausted too — both cursors must consume all segments (the trailing
`*` case returns early, before any cursor is exhausted). -/
theorem CreateItemMatcher_glob_cases :
    CreateItemMatcher "a::*::c" "a::b::c" = true ∧
    CreateItemMatcher "a::*::c" "a::b::b::c" = true ∧
    CreateItemMatcher "a::*\x7b1\x7d::c" "a::b::b::c" = false ∧
    CreateItemMatcher "a::*" "a::b::c" = true ∧
    CreateItemMatcher "a::b" "a::c" = false ∧
    (∀ glob_parts : List String, matchesParts glob_parts [] = glob_parts.isEmpty) ∧
    (∀ value_parts : List String, matchesParts [] value_parts = value_parts.isEmpty) := by
  refine ⟨by decide, by decide, by decide, by decide, by decide, ?_, ?_⟩
  · intro glob_parts
    cases glob_parts <;> rfl
  · intro value_parts
    cases value_parts <;> rfl

/-- C7: the source filter accepts an identifier exactly when no exclude
glob matches it and (the include set is empty or some include glob matches
it); in particular `includes=["pkg::*"], excludes=["pkg::internal::*"]`
accepts `pkg::foo::bar` and rejects `pkg::internal::x`. -/
theorem CreateSourceMatcher_policy :
    (∀ (filter : CodeCoverageContentFilter) (value : String),
      CreateSourceMatcher filter value = true ↔
        ((∀ g ∈ filter.excludes.getD [], CreateItemMatcher g value = false) ∧
         (filter.includes.getD [] = [] ∨
          ∃ g ∈ filter.includes.getD [], CreateItemMatcher g value = true))) ∧
    CreateSourceMatcher ⟨some ["pkg::*"], some ["pkg::internal::*"]⟩ "pkg::foo::bar" = true ∧
    CreateSourceMatcher ⟨some ["pkg::*"], some ["pkg::internal::*"]⟩ "pkg::internal::x" = false := by
  refine ⟨?_, by decide, by decide⟩
  intro filter value
  rw [CreateSourceMatcher_eq]
  simp [List.any_eq_true, List.isEmpty_iff, Bool.not_eq_true]

/-- C8: the Extract phase converts an absent aggregator result to
`(0, 0)`, and passes a present result's pair through unchanged. -/
theorem ExtractCoverageInfo_zero_default :
    ∀ (pathMatch : String → String → Bool)
      (source_filters : List (String × CodeCoverageContentFilter))
      (report : List ReportRecord),
      (ApplyFunc pathMatch source_filters report = .ok none →
        ExtractCoverageInfo pathMatch source_filters report = .ok (0, 0)) ∧
      (∀ r : CoverageResult,
        ApplyFunc pathMatch source_filters report = .ok (some r) →
        ExtractCoverageInfo pathMatch source_filters report = .ok (r.covered, r.uncovered)) := by
  intro pathMatch source_filters report
  constructor
  · intro h
    simp [ExtractCoverageInfo, h, extractReturnValue]
  · intro r h
    simp [ExtractCoverageInfo, h, extractReturnValue]

/-- Witness for C8: on an empty report with no filters the aggregator
returns no data and Extract reports `(0, 0)`. -/
theorem ExtractCoverageInfo_zero_default_witness :
    ExtractCoverageInfo (fun _ _ => false) [] [] = .ok (0, 0) :=
  (ExtractCoverageInfo_zero_default (fun _ _ => false) [] []).1 rfl

/-- C9: the aggregation is a pure function of the report contents and the
source-filter mapping — running the extraction twice on the same inputs
yields identical results (there is no state carried between calls in the
embedding; the source builds all of its state afresh inside each call). -/
theorem ExtractCoverageInfo_deterministic :
    ∀ (pathMatch : String → String → Bool)
      (source_filters : List (String × CodeCoverageContentFilter))
      (report : List ReportRecord),
      ApplyFunc pathMatch source_filters report =
        ApplyFunc pathMatch source_filters report ∧
      ExtractCoverageInfo pathMatch source_filters report =
        ExtractCoverageInfo pathMatch source_filters report :=
  fun _ _ _ => ⟨rfl, rfl⟩

/-- C10: with neither an `inputs` nor an `input` key in the compiler
context, the derived source-filenames list is the singleton `[none]`
(Python `[None]`), not the empty list: the `[x] or []` expression always
produces a non-empty one-element list, so the `or []` branch is
unreachable. -/
theorem deriveSourceFilenames_no_inputs :
    deriveSourceFilenames none none = [none] ∧
    (deriveSourceFilenames none none).isEmpty = false ∧
    (∀ input : Option String, deriveSourceFilenames none input = [input]) :=
  ⟨rfl, rfl, fun _ => rfl⟩

/-- C5: a filter is fast-pathed as "match every file" exactly when its
include list is exactly `["*"]` and its exclude field is absent (Python
`None`); such entries are excluded from the method-level matcher set; and a
file-level record's totals are captured only when no file-level result
exists yet and the filename matches a match-all glob — the first
qualifying record wins, later file-level records leave the capture
unchanged. -/
theorem isMatchAllFilter_spec :
    (∀ v : CodeCoverageContentFilter,
      isMatchAllFilter v = true ↔ (v.includes = some ["*"] ∧ v.excludes = none)) ∧
    (∀ (fs : List (String × CodeCoverageContentFilter))
       (kv : String × CodeCoverageContentFilter),
      kv ∈ source_matchers fs ↔ (kv ∈ fs ∧ isMatchAllFilter kv.2 = false)) ∧
    (∀ pm ags ms fr r (d : ReportRecord) fn tc tu,
      d.file.name = some fn → d.file.total_covered = some tc →
      d.file.total_uncovered = some tu →
      processRecord pm ags ms (fr, r) d =
        .ok ((if fr.isNone && ags.any (fun g => pm fn g) then some ⟨tc, tu⟩ else fr),
             r)) := by
  refine ⟨?_, ?_, ?_⟩
  · intro v
    obtain ⟨inc, exc⟩ := v
    cases inc with
    | none => simp [isMatchAllFilter]
    | some l =>
      cases l with
      | nil => simp [isMatchAllFilter]
      | cons a t =>
        cases t with
        | nil => simp [isMatchAllFilter, Option.isNone_iff_eq_none]
        | cons b t2 => simp [isMatchAllFilter]
  · intro fs kv
    simp [source_matchers, List.mem_filter]
  · intro pm ags ms fr r d fn tc tu hfn htc htu
    simp only [processRecord, hfn, htc, htu]
    cases hc : (fr.isNone && ags.any (fun g => pm fn g)) with
    | true => simp [hc]
    | false => simp [hc]

/-- Witness for C5: a file-level record captured through the match-all
glob `*` on a fresh state. -/
theorem isMatchAllFilter_spec_witness :
    processRecord (fun _ _ => true) ["*"] [] (none, none)
      ⟨⟨some "f", some 100, some 5⟩, none⟩ = .ok (some ⟨100, 5⟩, none) := by
  have h := isMatchAllFilter_spec.2.2 (fun _ _ => true) ["*"] [] none none
    ⟨⟨some "f", some 100, some 5⟩, none⟩ "f" 100 5 rfl rfl rfl
  simpa using h

/-- C4: result selection — whatever the record loop produced, the
aggregator returns the method-level sum when one was accumulated, else the
captured file-level fallback, else no result; and the spec's concrete
scenario (file-level total `(100, 5)` under a match-all glob plus filtered
method records summing to `(40, 2)`) yields `(40, 2)`. -/
theorem ApplyFunc_result_selection :
    (∀ pm fs rep fr r,
      runRecords pm (should_match_all_file_globs fs) (source_matchers fs)
          (none, none) rep = .ok (fr, r) →
      ApplyFunc pm fs rep =
        .ok (match r with
             | some p => some ⟨p.1, p.2⟩
             | none => fr)) ∧
    ApplyFunc (fun _ _ => true)
      [("*", ⟨some ["*"], none⟩), ("g", ⟨some ["m"], none⟩)]
      [⟨⟨some "f", some 100, some 5⟩, none⟩,
       ⟨⟨some "f", none, none⟩, some ⟨some "m", some 30, some 1⟩⟩,
       ⟨⟨some "f", none, none⟩, some ⟨some "m", some 10, some 1⟩⟩] =
      .ok (some ⟨40, 2⟩) := by
  constructor
  · intro pm fs rep fr r h
    cases r with
    | some p => simp [ApplyFunc, h]
    | none => cases fr <;> simp [ApplyFunc, h]
  · decide

/-- Witness for C4: on the empty report the loop yields the fresh state
and the aggregator returns no result. -/
theorem ApplyFunc_result_selection_witness :
    ApplyFunc (fun _ _ => true) [] [] = .ok none := by
  simpa using ApplyFunc_result_selection.1 (fun _ _ => true) [] [] none none rfl

/-- C1 counterexample: the filename `f` matches both configured
(non-match-all) globs, the filter of `g1` accepts the method name `m`
(that of `g2` rejects it), yet the aggregator adds nothing and returns no
result — the source adds the counts only when ALL matched filters accept,
not when at least one does. -/
theorem ApplyFunc_single_accepting_filter_counterexample :
    CreateSourceMatcher ⟨some ["m"], none⟩ "m" = true ∧
    CreateSourceMatcher ⟨some ["x"], none⟩ "m" = false ∧
    isMatchAllFilter ⟨some ["m"], none⟩ = false ∧
    isMatchAllFilter ⟨some ["x"], none⟩ = false ∧
    ApplyFunc (fun _ _ => true)
      [("g1", ⟨some ["m"], none⟩), ("g2", ⟨some ["x"], none⟩)]
      [⟨⟨some "f", none, none⟩, some ⟨some "m", some 3, some 1⟩⟩] = .ok none ∧
    (ApplyFunc (fun _ _ => true)
      [("g1", ⟨some ["m"], none⟩), ("g2", ⟨some ["x"], none⟩)]
      [⟨⟨some "f", none, none⟩, some ⟨some "m", some 3, some 1⟩⟩] =
        .ok (some ⟨3, 1⟩)) = False :=
  ⟨by decide, by decide, by decide, by decide, by decide, eq_false (by decide)⟩

/-- C1 (amended): for a method-level record with all fields present, the
counts are added exactly when at least one configured non-match-all glob
matches the filename AND every matched filter accepts the method name;
when some matched filter rejects the method name, or when no glob matches
the filename, nothing is added. -/
theorem processRecord_adds_iff_all_matched_accept :
    ∀ (pm : String → String → Bool) ags ms st (d : ReportRecord) fn md mn,
      d.file.name = some fn →
      (d.file.total_covered = none ∨ d.file.total_uncovered = none) →
      d.method = some md →
      md.name = some mn →
      ((∀ tc tu, md.total_covered = some tc → md.total_uncovered = some tu →
          ms.filter (fun kv => pm fn kv.1) ≠ [] →
          (∀ kv ∈ ms.filter (fun kv => pm fn kv.1),
            CreateSourceMatcher kv.2 mn = true) →
          processRecord pm ags ms st d =
            .ok (st.1, some ((st.2.getD (0, 0)).1 + tc, (st.2.getD (0, 0)).2 + tu))) ∧
       ((∃ kv ∈ ms.filter (fun kv => pm fn kv.1),
            CreateSourceMatcher kv.2 mn = false) →
          processRecord pm ags ms st d = .ok st) ∧
       (ms.filter (fun kv => pm fn kv.1) = [] →
          processRecord pm ags ms st d = .ok st)) := by
  intro pm ags ms st d fn md mn hfn hfile hmd hmn
  refine ⟨?_, ?_, ?_⟩
  · intro tc tu htc htu hne hall
    have hne2 : (matchFuncs pm ms fn).isEmpty = false := by
      simp only [matchFuncs]
      cases hl : ms.filter (fun kv => pm fn kv.1) with
      | nil => exact absurd hl hne
      | cons a t => rfl
    have hall2 : (matchFuncs pm ms fn).all (fun f => f mn) = true := by
      rw [List.all_eq_true]
      intro f hf
      simp only [matchFuncs, List.mem_map] at hf
      obtain ⟨kv, hkv, rfl⟩ := hf
      exact hall kv hkv
    have hb : (!(matchFuncs pm ms fn).isEmpty &&
        (matchFuncs pm ms fn).all (fun f => f mn)) = true := by
      simp [hne2, hall2]
    rcases hfile with h1 | h1 <;>
      simp [processRecord, hfn, h1, hmd, hmn, hb, htc, htu]
  · intro hex
    obtain ⟨kv, hkv, hrej⟩ := hex
    have hall2 : (matchFuncs pm ms fn).all (fun f => f mn) = false := by
      rw [List.all_eq_false]
      refine ⟨CreateSourceMatcher kv.2, List.mem_map.mpr ⟨kv, hkv, rfl⟩, ?_⟩
      simp [hrej]
    have hb : (!(matchFuncs pm ms fn).isEmpty &&
        (matchFuncs pm ms fn).all (fun f => f mn)) = false := by
      simp [hall2]
    rcases hfile with h1 | h1 <;>
      simp [processRecord, hfn, h1, hmd, hmn, hb]
  · intro hnil
    have hb : (!(matchFuncs pm ms fn).isEmpty &&
        (matchFuncs pm ms fn).all (fun f => f mn)) = false := by
      have : (matchFuncs pm ms fn).isEmpty = true := by
        simp [matchFuncs, hnil]
      simp [this]
    rcases hfile with h1 | h1 <;>
      simp [processRecord, hfn, h1, hmd, hmn, hb]

/-- Witness for C1 (amended): a single matching, accepting filter adds the
method counts to the fresh running total. -/
theorem processRecord_adds_iff_all_matched_accept_witness :
    processRecord (fun _ _ => true) [] [("g1", ⟨some ["m"], none⟩)] (none, none)
      ⟨⟨some "f", none, none⟩, some ⟨some "m", some 3, some 1⟩⟩ =
      .ok (none, some (3, 1)) := by
  have h := (processRecord_adds_iff_all_matched_accept (fun _ _ => true) []
      [("g1", ⟨some ["m"], none⟩)] (none, none)
      ⟨⟨some "f", none, none⟩, some ⟨some "m", some 3, some 1⟩⟩ "f"
      ⟨some "m", some 3, some 1⟩ "m" rfl (Or.inl rfl) rfl rfl).1 3 1 rfl rfl
      (by decide) (by decide)
  simpa using h

/-- C2 counterexample: a record carrying both file-level totals AND a
`method` object is treated as file-level by the source (its method counts
are never summed, and with no match-all glob configured nothing is
captured either), while the claim classifies it as method-level — which
would have produced the sum `(3, 1)` here, since the only configured glob
matches and its filter accepts the method name. -/
theorem fileLevel_record_with_method_key_counterexample :
    (ReportRecord.mk ⟨some "f", some 100, some 5⟩
      (some ⟨some "m", some 3, some 1⟩)).method.isSome = true ∧
    CreateSourceMatcher ⟨some ["m"], none⟩ "m" = true ∧
    isMatchAllFilter ⟨some ["m"], none⟩ = false ∧
    ApplyFunc (fun _ _ => true) [("g", ⟨some ["m"], none⟩)]
      [⟨⟨some "f", some 100, some 5⟩, some ⟨some "m", some 3, some 1⟩⟩] = .ok none ∧
    (ApplyFunc (fun _ _ => true) [("g", ⟨some ["m"], none⟩)]
      [⟨⟨some "f", some 100, some 5⟩, some ⟨some "m", some 3, some 1⟩⟩] =
        .ok (some ⟨3, 1⟩)) = False :=
  ⟨by decide, by decide, by decide, by decide, eq_false (by decide)⟩

/-- C2 (amended): a record is classified as file-level exactly when it
carries both `total_covered` and `total_uncovered` directly under its
`file` key — the presence of a `method` key is irrelevant: such a record
never adds to the method-level sum and never fails a method assertion;
a record lacking one of the two totals is processed as method-level (here
evidenced by the `method` assertion firing when the `method` key is
absent). -/
theorem processRecord_file_level_classification :
    (∀ pm ags ms st (d : ReportRecord) fn tc tu,
      d.file.name = some fn → d.file.total_covered = some tc →
      d.file.total_uncovered = some tu →
      ∃ fr2, processRecord pm ags ms st d = .ok (fr2, st.2)) ∧
    (∀ pm ags ms st (d : ReportRecord) fn,
      d.file.name = some fn →
      (d.file.total_covered = none ∨ d.file.total_uncovered = none) →
      d.method = none →
      processRecord pm ags ms st d = .error "method_data") := by
  constructor
  · intro pm ags ms st d fn tc tu hfn htc htu
    cases hc : (st.1.isNone && ags.any (fun g => pm fn g)) with
    | true =>
      exact ⟨some ⟨tc, tu⟩, by simp [processRecord, hfn, htc, htu, hc]⟩
    | false =>
      exact ⟨st.1, by simp [processRecord, hfn, htc, htu, hc]⟩
  · intro pm ags ms st d fn hfn hfile hmd
    rcases hfile with h1 | h1 <;> simp [processRecord, hfn, h1, hmd]

/-- Witness for C2 (amended): the counterexample record is skipped as
file-level on a fresh state, and a totals-free record without a `method`
key aborts. -/
theorem processRecord_file_level_classification_witness :
    (∃ fr2, processRecord (fun _ _ => true) [] [("g", ⟨some ["m"], none⟩)]
      (none, none)
      ⟨⟨some "f", some 100, some 5⟩, some ⟨some "m", some 3, some 1⟩⟩ =
        .ok (fr2, none)) ∧
    processRecord (fun _ _ => true) [] [] (none, none)
      ⟨⟨some "f", none, none⟩, none⟩ = .error "method_data" :=
  ⟨processRecord_file_level_classification.1 (fun _ _ => true) []
      [("g", ⟨some ["m"], none⟩)] (none, none)
      ⟨⟨some "f", some 100, some 5⟩, some ⟨some "m", some 3, some 1⟩⟩ "f" 100 5
      rfl rfl rfl,
   processRecord_file_level_classification.2 (fun _ _ => true) [] [] (none, none)
      ⟨⟨some "f", none, none⟩, none⟩ "f" rfl (Or.inl rfl) rfl⟩

/-- Helper: one record aborts `processRecord` (in any state) exactly when
`requiredFieldMissing` holds of it. -/
lemma processRecord_error_iff (pm : String → String → Bool) (ags : List String)
    (ms : List (String × CodeCoverageContentFilter))
    (st : Option CoverageResult × Option (Int × Int)) (d : ReportRecord) :
    (∃ e, processRecord pm ags ms st d = .error e) ↔
      requiredFieldMissing pm ms d = true := by
  obtain ⟨⟨oname, otc, otu⟩, om⟩ := d
  cases oname with
  | none => simp [processRecord, requiredFieldMissing]
  | some fn =>
    cases hft : (otc.isSome && otu.isSome) with
    | true =>
      cases hc : (st.1.isNone && ags.any (fun g => pm fn g)) <;>
        simp [processRecord, requiredFieldMissing, hft, hc]
    | false =>
      cases om with
      | none => simp [processRecord, requiredFieldMissing, hft]
      | some md =>
        obtain ⟨mno, mtc, mtu⟩ := md
        cases mno with
        | none => simp [processRecord, requiredFieldMissing, hft]
        | some mn =>
          cases hb : (!(matchFuncs pm ms fn).isEmpty &&
              (matchFuncs pm ms fn).all (fun f => f mn)) with
          | false => simp [processRecord, requiredFieldMissing, hft, hb]
          | true =>
            cases mtc <;> cases mtu <;>
              simp [processRecord, requiredFieldMissing, hft, hb]

/-- Helper: the record loop aborts (from any starting state) exactly when
some record of the report has a missing required field. -/
lemma runRecords_error_iff (pm : String → String → Bool) (ags : List String)
    (ms : List (String × CodeCoverageContentFilter)) (rep : List ReportRecord) :
    ∀ st, (∃ e, runRecords pm ags ms st rep = .error e) ↔
      ∃ d ∈ rep, requiredFieldMissing pm ms d = true := by
  induction rep with
  | nil => intro st; simp [runRecords]
  | cons d rest ih =>
    intro st
    cases hp : processRecord pm ags ms st d with
    | error e =>
      have hd : requiredFieldMissing pm ms d = true :=
        (processRecord_error_iff pm ags ms st d).mp ⟨e, hp⟩
      simp only [runRecords, hp]
      constructor
      · intro _
        exact ⟨d, by simp, hd⟩
      · intro _
        exact ⟨e, rfl⟩
    | ok st2 =>
      have hd : requiredFieldMissing pm ms d = false := by
        cases h : requiredFieldMissing pm ms d with
        | false => rfl
        | true =>
          obtain ⟨e, he⟩ := (processRecord_error_iff pm ags ms st d).mpr h
          rw [hp] at he
          exact Except.noConfusion he
      simp only [runRecords, hp]
      rw [ih st2]
      constructor
      · rintro ⟨d2, hd2, hm⟩
        exact ⟨d2, by simp [hd2], hm⟩
      · rintro ⟨d2, hd2, hm⟩
        rcases List.mem_cons.mp hd2 with h | h
        · subst h
          rw [hd] at hm
          exact absurd hm (by simp)
        · exact ⟨d2, h, hm⟩

/-- C3 (amended): the extraction fails with a fatal error exactly when some
record of the report has a missing required field in the sense of
`requiredFieldMissing` — a missing filename; a missing `method` object or
method name on a method-level record; or missing method totals on a record
whose filename matches at least one non-match-all glob with every matched
filter accepting the method name.  Missing totals on a record that matches
no filter (or that some matched filter rejects) do NOT abort, and no
partial result is returned on failure. -/
theorem ApplyFunc_fatal_error_iff :
    ∀ (pm : String → String → Bool)
      (fs : List (String × CodeCoverageContentFilter))
      (rep : List ReportRecord),
      (∃ e, ApplyFunc pm fs rep = .error e) ↔
        ∃ d ∈ rep, requiredFieldMissing pm (source_matchers fs) d = true := by
  intro pm fs rep
  rw [← runRecords_error_iff pm (should_match_all_file_globs fs)
    (source_matchers fs) rep (none, none)]
  cases hr : runRecords pm (should_match_all_file_globs fs)
      (source_matchers fs) (none, none) rep with
  | error e => simp [ApplyFunc, hr]
  | ok st =>
    obtain ⟨fr, r⟩ := st
    cases r <;> cases fr <;> simp [ApplyFunc, hr]

/-- C3 counterexample: a method-level record whose method lacks both
totals, in a report processed with no configured filters, does not abort
the extraction (it returns the no-data result with no error) — the source
asserts the totals only for records matched and accepted by a filter,
while the claim demands a fatal error regardless of matching. -/
theorem missing_totals_without_match_counterexample :
    (MethodData.mk (some "m") none none).total_covered.isNone = true ∧
    (MethodData.mk (some "m") none none).total_uncovered.isNone = true ∧
    ApplyFunc (fun _ _ => true) []
      [⟨⟨some "f", none, none⟩, some ⟨some "m", none, none⟩⟩] = .ok none ∧
    (∀ e : String,
      (ApplyFunc (fun _ _ => true) []
        [⟨⟨some "f", none, none⟩, some ⟨some "m", none, none⟩⟩] =
          .error e) = False) := by
  refine ⟨by decide, by decide, by decide, ?_⟩
  intro e
  apply eq_false
  intro h
  rw [show ApplyFunc (fun _ _ => true) []
      [⟨⟨some "f", none, none⟩, some ⟨some "m", none, none⟩⟩] =
      (.ok none : Except String (Option CoverageResult)) from by decide] at h
  exact Except.noConfusion h

end ClangCoverage
